import Mathlib

/-!
Shallow embedding of the order-matching engine from
src/price_level_b_tree_order_book.rs, src/util.rs and src/api.rs,
instantiated (as the repository's own test suite does) at
QuantityT = PriceT = usize (modelled by Nat) and OrderIdT = uuid::Uuid
(modelled by Nat, minted by a fresh-identifier counter carried in the book,
faithful to the contract that the external identifier source never reuses an
identifier for the lifetime of a book instance).

Conventions of the embedding:
- BTreeMap<PriceT, _> is an association list sorted by strictly ascending key,
  matching the iteration order of the B-tree; first_entry is the head,
  last_entry is the last element.
- HashMap<OrderIdT, _> (the reverse index) is an association list in insertion
  order; only lookup/insert/remove are used, so the order is immaterial.
- NonEmpty<VecDeque<_>> is a plain list; the branches where the source relies
  on non-emptiness (front(), pop_front()) surface as explicit panic results on
  the empty list, mirroring the expect() calls inside NonEmpty.
- Panics (insert_uncontended collision, expect on a stale reverse index,
  unsigned subtraction underflow as in debug builds, the unreachable spread
  arms, uuid collision) are modelled as an explicit panicked result.
- The FnOnce condition callback is a pure function; each operation also
  returns the list of identifiers the callback was invoked with, recorded at
  the unique call site, so that invocation-count properties are statable.
-/

namespace OrderBook

/-- An entry of a price level: (order id, remaining quantity). -/
abbrev Entry := Nat × Nat

/-- The inner queue of NonEmpty<VecDeque<(OrderIdT, QuantityT)>>; head is the
front (oldest order). -/
abbrev Level := List Entry

/-- numwit::Positive for usize: a strictly positive natural. -/
abbrev Positive := {n : Nat // 0 < n}

/-- std::ops::ControlFlow<R, ()> as returned by the condition callback. -/
inductive Flow (ρ : Type) where
  | brk (reason : ρ)
  | cont
deriving Repr, DecidableEq

/-- BTreeMap/HashMap lookup on an association list (first matching key). -/
def mapGet {α : Type} (k : Nat) : List (Nat × α) → Option α
  | [] => none
  | (k₀, v₀) :: rest => if k = k₀ then some v₀ else mapGet k rest

/-- BTreeMap::remove / HashMap::remove: drop the (unique) binding of k. -/
def removeKey {α : Type} (k : Nat) : List (Nat × α) → List (Nat × α)
  | [] => []
  | (k₀, v₀) :: rest => if k = k₀ then rest else (k₀, v₀) :: removeKey k rest

/-- BTreeMap::insert on the sorted association list (replaces an existing
binding of the same key). -/
def insertSorted {α : Type} (k : Nat) (v : α) : List (Nat × α) → List (Nat × α)
  | [] => [(k, v)]
  | (k₀, v₀) :: rest =>
    if k < k₀ then (k, v) :: (k₀, v₀) :: rest
    else if k = k₀ then (k, v) :: rest
    else (k₀, v₀) :: insertSorted k v rest

/-- util.rs insert_uncontended: BTreeMap::insert, but a clobbered key is a
fatal internal-consistency violation (modelled as none = panic). -/
def insert_uncontended {α : Type} (m : List (Nat × α)) (k : Nat) (v : α) :
    Option (List (Nat × α)) :=
  if (mapGet k m).isSome then none else some (insertSorted k v m)

/-- BTreeMap::entry(price).and_modify(push_back).or_insert(singleton), the
book-entry path of both conditional operations. -/
def entryPushBack (p : Nat) (e : Entry) : List (Nat × Level) → List (Nat × Level)
  | [] => [(p, [e])]
  | (k₀, lvl₀) :: rest =>
    if p < k₀ then (p, [e]) :: (k₀, lvl₀) :: rest
    else if p = k₀ then (k₀, lvl₀ ++ [e]) :: rest
    else (k₀, lvl₀) :: entryPushBack p e rest

/-- Unsigned subtraction as the source's QuantityT = usize performs it: the
difference when it exists, a panic (none) on underflow, as in the debug
builds the repository's test suite runs under. -/
def checkedSub (a b : Nat) : Option Nat := if b ≤ a then some (a - b) else none

/-- The reverse-index tag: which side and price level holds an order. -/
inductive BuyOrSellAtPriceLevel where
  | buy (price : Nat)
  | sell (price : Nat)
deriving Repr, DecidableEq

/-- PriceLevelBTreeOrderBook: two price-sorted side maps, the reverse index,
and the state of the external identifier source (next fresh id). -/
structure Book where
  buys : List (Nat × Level)
  sells : List (Nat × Level)
  ids_to_price_level : List (Nat × BuyOrSellAtPriceLevel)
  nextId : Nat
deriving Repr, DecidableEq

/-- Default::default(): the empty book. -/
def emptyBook : Book := ⟨[], [], [], 0⟩

/-- api BuyEntryOrExecution (the outcome enum the implementation returns;
its declaration is not under src/, so its constructors are taken from the
implementation's construction sites: counterparty id, optional positive
spread, and any remaining quantity). -/
inductive BuyEntryOrExecution where
  | enteredOrderBook (id : Nat)
  | mutualFullExecution (seller : Nat) (spread : Option Nat)
  | buyerFullyExecuted (seller : Nat) (spread : Option Nat) (sellers_remaining : Nat)
  | sellerFullyExecuted (seller : Nat) (spread : Option Nat) (buyers_remaining : Nat)
deriving Repr, DecidableEq

/-- api SellEntryOrExecution, mirror of BuyEntryOrExecution. -/
inductive SellEntryOrExecution where
  | enteredOrderBook (id : Nat)
  | mutualFullExecution (buyer : Nat) (spread : Option Nat)
  | buyerFullyExecuted (buyer : Nat) (spread : Option Nat) (sellers_remaining : Nat)
  | sellerFullyExecuted (buyer : Nat) (spread : Option Nat) (buyers_remaining : Nat)
deriving Repr, DecidableEq

/-- Result of a conditional operation: a panic (fatal internal failure), an
abort carrying the caller's reason, or a success outcome; the non-panicking
constructors carry the book state after the call. -/
inductive OpOut (ρ ω : Type) where
  | panicked
  | aborted (reason : ρ) (book : Book)
  | ok (outcome : ω) (book : Book)
deriving Repr, DecidableEq

/-- The spread computation of conditional_buy: match on
ask_price.cmp(&unit_price) with Less => Some(Positive::new(diff).unwrap()),
Equal => None, Greater => unreachable. Outer none models a panic
(the unreachable arm, or Positive::new on zero). -/
def spread_buy (ask_price unit_price : Nat) : Option (Option Nat) :=
  if ask_price < unit_price then
    (if unit_price - ask_price = 0 then none else some (some (unit_price - ask_price)))
  else if ask_price = unit_price then some none
  else none

/-- The spread computation of conditional_sell: match on
bid_price.cmp(&unit_price) with Less => unreachable, Equal => None,
Greater => Some(Positive::new(diff).unwrap()). -/
def spread_sell (bid_price unit_price : Nat) : Option (Option Nat) :=
  if bid_price < unit_price then none
  else if bid_price = unit_price then some none
  else (if bid_price - unit_price = 0 then none else some (some (bid_price - unit_price)))

/-- The shared Some(_) | None arm of conditional_buy: mint a fresh id, append
the order at the back of its price level (creating the level if absent), and
record it in the reverse index, where a pre-existing id is a fatal uuid
collision. -/
def enter_buy {ρ : Type} (b : Book) (quantity unit_price : Nat) :
    OpOut ρ BuyEntryOrExecution × List Nat :=
  let id := b.nextId
  let buys' := entryPushBack unit_price (id, quantity) b.buys
  if (mapGet id b.ids_to_price_level).isSome then (OpOut.panicked, [])
  else
    (OpOut.ok (BuyEntryOrExecution.enteredOrderBook id)
      { b with buys := buys'
               ids_to_price_level :=
                 b.ids_to_price_level ++ [(id, BuyOrSellAtPriceLevel.buy unit_price)]
               nextId := b.nextId + 1 }, [])

/-- The shared Some(_) | None arm of conditional_sell. -/
def enter_sell {ρ : Type} (b : Book) (quantity unit_price : Nat) :
    OpOut ρ SellEntryOrExecution × List Nat :=
  let id := b.nextId
  let sells' := entryPushBack unit_price (id, quantity) b.sells
  if (mapGet id b.ids_to_price_level).isSome then (OpOut.panicked, [])
  else
    (OpOut.ok (SellEntryOrExecution.enteredOrderBook id)
      { b with sells := sells'
               ids_to_price_level :=
                 b.ids_to_price_level ++ [(id, BuyOrSellAtPriceLevel.sell unit_price)]
               nextId := b.nextId + 1 }, [])

/-- conditional_buy of price_level_b_tree_order_book.rs, translated branch by
branch. The second component records the identifiers the condition callback
was invoked with. -/
def conditional_buy {ρ : Type} (b : Book) (q : Positive) (unit_price : Nat)
    (condition : Nat → Flow ρ) : OpOut ρ BuyEntryOrExecution × List Nat :=
  let quantity := q.val
  match b.sells with
  | (ask_price, level) :: rest_sells =>
    if ask_price ≤ unit_price then
      match level with
      | [] => (OpOut.panicked, [])
      | (seller_id, seller_quantity) :: rest_level =>
        ( match condition seller_id with
          | Flow.brk reason => OpOut.aborted reason b
          | Flow.cont =>
            let remaining_level : Option Level :=
              if rest_level.isEmpty then none else some rest_level
            match spread_buy ask_price unit_price with
            | none => OpOut.panicked
            | some spread =>
              if quantity < seller_quantity then
                match checkedSub seller_quantity quantity with
                | none => OpOut.panicked
                | some sellers_remaining =>
                  let new_level : Level :=
                    match remaining_level with
                    | some remaining => (seller_id, sellers_remaining) :: remaining
                    | none => [(seller_id, sellers_remaining)]
                  match insert_uncontended rest_sells ask_price new_level with
                  | none => OpOut.panicked
                  | some sells' =>
                    OpOut.ok
                      (BuyEntryOrExecution.buyerFullyExecuted seller_id spread sellers_remaining)
                      { b with sells := sells' }
              else if quantity = seller_quantity then
                let index' := removeKey seller_id b.ids_to_price_level
                match remaining_level with
                | some remaining =>
                  match insert_uncontended rest_sells ask_price remaining with
                  | none => OpOut.panicked
                  | some sells' =>
                    OpOut.ok (BuyEntryOrExecution.mutualFullExecution seller_id spread)
                      { b with sells := sells', ids_to_price_level := index' }
                | none =>
                  OpOut.ok (BuyEntryOrExecution.mutualFullExecution seller_id spread)
                    { b with sells := rest_sells, ids_to_price_level := index' }
              else
                match checkedSub seller_quantity quantity with
                | none => OpOut.panicked
                | some buyers_remaining =>
                  let index' := removeKey seller_id b.ids_to_price_level
                  match remaining_level with
                  | some remaining =>
                    match insert_uncontended rest_sells ask_price remaining with
                    | none => OpOut.panicked
                    | some sells' =>
                      OpOut.ok
                        (BuyEntryOrExecution.sellerFullyExecuted seller_id spread buyers_remaining)
                        { b with sells := sells', ids_to_price_level := index' }
                  | none =>
                    OpOut.ok
                      (BuyEntryOrExecution.sellerFullyExecuted seller_id spread buyers_remaining)
                      { b with sells := rest_sells, ids_to_price_level := index' }
          , [seller_id])
    else enter_buy b quantity unit_price
  | [] => enter_buy b quantity unit_price

/-- conditional_sell of price_level_b_tree_order_book.rs, translated branch by
branch, faithfully retaining the source's choice of target map on each
insertion (the partial-fill and seller-surplus arms insert into sells). -/
def conditional_sell {ρ : Type} (b : Book) (q : Positive) (unit_price : Nat)
    (condition : Nat → Flow ρ) : OpOut ρ SellEntryOrExecution × List Nat :=
  let quantity := q.val
  match b.buys.getLast? with
  | some (bid_price, level) =>
    if unit_price ≤ bid_price then
      match level with
      | [] => (OpOut.panicked, [])
      | (buyer_id, buyer_quantity) :: rest_level =>
        ( match condition buyer_id with
          | Flow.brk reason => OpOut.aborted reason b
          | Flow.cont =>
            let rest_buys := b.buys.dropLast
            let remaining_level : Option Level :=
              if rest_level.isEmpty then none else some rest_level
            match spread_sell bid_price unit_price with
            | none => OpOut.panicked
            | some spread =>
              if quantity < buyer_quantity then
                match checkedSub buyer_quantity quantity with
                | none => OpOut.panicked
                | some buyers_remaining =>
                  let new_level : Level :=
                    match remaining_level with
                    | some remaining => (buyer_id, buyers_remaining) :: remaining
                    | none => [(buyer_id, buyers_remaining)]
                  match insert_uncontended b.sells bid_price new_level with
                  | none => OpOut.panicked
                  | some sells' =>
                    OpOut.ok
                      (SellEntryOrExecution.sellerFullyExecuted buyer_id spread buyers_remaining)
                      { b with buys := rest_buys, sells := sells' }
              else if quantity = buyer_quantity then
                let index' := removeKey buyer_id b.ids_to_price_level
                match remaining_level with
                | some remaining =>
                  match insert_uncontended rest_buys bid_price remaining with
                  | none => OpOut.panicked
                  | some buys' =>
                    OpOut.ok (SellEntryOrExecution.mutualFullExecution buyer_id spread)
                      { b with buys := buys', ids_to_price_level := index' }
                | none =>
                  OpOut.ok (SellEntryOrExecution.mutualFullExecution buyer_id spread)
                    { b with buys := rest_buys, ids_to_price_level := index' }
              else
                match checkedSub buyer_quantity quantity with
                | none => OpOut.panicked
                | some sellers_remaining =>
                  let index' := removeKey buyer_id b.ids_to_price_level
                  match remaining_level with
                  | some remaining =>
                    match insert_uncontended b.sells bid_price remaining with
                    | none => OpOut.panicked
                    | some sells' =>
                      OpOut.ok
                        (SellEntryOrExecution.buyerFullyExecuted buyer_id spread sellers_remaining)
                        { b with buys := rest_buys, sells := sells',
                                 ids_to_price_level := index' }
                  | none =>
                    OpOut.ok
                      (SellEntryOrExecution.buyerFullyExecuted buyer_id spread sellers_remaining)
                      { b with buys := rest_buys, ids_to_price_level := index' }
          , [buyer_id])
    else enter_sell b quantity unit_price
  | none => enter_sell b quantity unit_price

/-- api QueryResult (mirrors BuyOrSell in the implementation's query):
no such order, or the side, current quantity and price of a resident order. -/
inductive QueryResult where
  | noSuchOrder
  | buy (quantity : Nat) (unit_price : Nat)
  | sell (quantity : Nat) (unit_price : Nat)
deriving Repr, DecidableEq

/-- The level scan inside query:
iter().find_map(match it_id == &id then Some(quantity)). -/
def findQty (id : Nat) : Level → Option Nat
  | [] => none
  | (eid, q) :: rest => if eid = id then some q else findQty id rest

/-- query of price_level_b_tree_order_book.rs: a read-only lookup through the
reverse index, scanning the indicated level for the authoritative quantity.
The method takes the receiver by shared reference, so the embedding returns
the receiver unchanged as the second component; none models the
expect(stale ids_to_price_level) panics. -/
def query (b : Book) (id : Nat) : Option QueryResult × Book :=
  ( match mapGet id b.ids_to_price_level with
    | some (BuyOrSellAtPriceLevel.buy level_price) =>
      match mapGet level_price b.buys with
      | none => none
      | some level =>
        match findQty id level with
        | none => none
        | some quantity => some (QueryResult.buy quantity level_price)
    | some (BuyOrSellAtPriceLevel.sell level_price) =>
      match mapGet level_price b.sells with
      | none => none
      | some level =>
        match findQty id level with
        | none => none
        | some quantity => some (QueryResult.sell quantity level_price)
    | none => some QueryResult.noSuchOrder
  , b)

/-- api CancelResult: the order was cancelled, or it was not resident. -/
inductive CancelResult where
  | cancelled
  | noSuchOrder
deriving Repr, DecidableEq

/-- Modelled from the spec: NonEmpty::pop_once_by, called by cancel but absent
from src/util.rs. Per the spec, cancel removes the (single) matching order
from its level and every removal operation on the non-empty queue returns
either the remaining queue, known non-empty, or explicit emptiness; so this
removes the first entry satisfying the predicate, returning the remaining
level (none when emptied) together with the removed entry, and no matching
entry is a fatal stale-index failure (outer none = panic). -/
def pop_once_by (p : Entry → Bool) : Level → Option (Option Level × Entry)
  | [] => none
  | e :: rest =>
    if p e then some (if rest.isEmpty then none else some rest, e)
    else
      match pop_once_by p rest with
      | none => none
      | some (none, x) => some (some [e], x)
      | some (some rem, x) => some (some (e :: rem), x)

/-- cancel of price_level_b_tree_order_book.rs, translated branch by branch,
faithfully retaining the source's choice of target map on each reinsertion
(the Sell arm reinserts the remaining level into buys). Outer none models the
expect / insert_uncontended panics. -/
def cancel (b : Book) (id : Nat) : Option (CancelResult × Book) :=
  match mapGet id b.ids_to_price_level with
  | some (BuyOrSellAtPriceLevel.buy price) =>
    let index' := removeKey id b.ids_to_price_level
    match mapGet price b.buys with
    | none => none
    | some level =>
      let buys₀ := removeKey price b.buys
      match pop_once_by (fun e => e.1 = id) level with
      | none => none
      | some (some remaining_level, _) =>
        match insert_uncontended buys₀ price remaining_level with
        | none => none
        | some buys' =>
          some (CancelResult.cancelled,
            { b with buys := buys', ids_to_price_level := index' })
      | some (none, _) =>
        some (CancelResult.cancelled,
          { b with buys := buys₀, ids_to_price_level := index' })
  | some (BuyOrSellAtPriceLevel.sell price) =>
    let index' := removeKey id b.ids_to_price_level
    match mapGet price b.sells with
    | none => none
    | some level =>
      let sells₀ := removeKey price b.sells
      match pop_once_by (fun e => e.1 = id) level with
      | none => none
      | some (some remaining_level, _) =>
        match insert_uncontended b.buys price remaining_level with
        | none => none
        | some buys' =>
          some (CancelResult.cancelled,
            { b with buys := buys', sells := sells₀, ids_to_price_level := index' })
      | some (none, _) =>
        some (CancelResult.cancelled,
          { b with sells := sells₀, ids_to_price_level := index' })
  | none => some (CancelResult.noSuchOrder, b)

/-- api Order as returned by the reporting listings. -/
structure Order where
  quantity : Nat
  unit_price : Nat
  id : Nat
deriving Repr, DecidableEq

/-- One price level flattened into reported orders, preserving queue order. -/
def levelOrders (price : Nat) (level : Level) : List Order :=
  level.map (fun e => { quantity := e.2, unit_price := price, id := e.1 })

/-- flat_map over the side map in iteration order. -/
def flattenLevels : List (Nat × Level) → List Order
  | [] => []
  | (p, lvl) :: rest => levelOrders p lvl ++ flattenLevels rest

/-- ReportingOrderBookApi::buys: iterate the buys map in reverse (highest
price first) and flatten each level front first. -/
def buysList (b : Book) : List Order := flattenLevels b.buys.reverse

/-- ReportingOrderBookApi::sells: iterate the sells map in order (lowest
price first) and flatten each level front first. -/
def sellsList (b : Book) : List Order := flattenLevels b.sells

/-- Best (highest) resident bid price: the last key of the buys map. -/
def best_buy (b : Book) : Option Nat := b.buys.getLast?.map Prod.fst

/-- Best (lowest) resident ask price: the first key of the sells map. -/
def best_sell (b : Book) : Option Nat := b.sells.head?.map Prod.fst

/-- A public operation of the book, with the always-continue condition (the
unconditional form derived in api.rs). -/
inductive Op where
  | buy (quantity price : Nat)
  | sell (quantity price : Nat)
  | cancelOp (id : Nat)
deriving Repr, DecidableEq

/-- Run one public operation, threading the book state; none when the call
panics or the quantity is not representable as Positive. -/
def applyOp (b : Book) : Op → Option Book
  | Op.buy quantity price =>
    if h : 0 < quantity then
      match (conditional_buy b ⟨quantity, h⟩ price (fun _ => (Flow.cont : Flow Unit))).1 with
      | OpOut.ok _ b' => some b'
      | OpOut.aborted _ b' => some b'
      | OpOut.panicked => none
    else none
  | Op.sell quantity price =>
    if h : 0 < quantity then
      match (conditional_sell b ⟨quantity, h⟩ price (fun _ => (Flow.cont : Flow Unit))).1 with
      | OpOut.ok _ b' => some b'
      | OpOut.aborted _ b' => some b'
      | OpOut.panicked => none
    else none
  | Op.cancelOp id =>
    match cancel b id with
    | some (_, b') => some b'
    | none => none

/-- Run a sequence of public operations from a starting book. -/
def runOps (b : Book) : List Op → Option Book
  | [] => some b
  | op :: rest =>
    match applyOp b op with
    | some b' => runOps b' rest
    | none => none

/-- The structural guarantee of BTreeMap in the association-list model: keys
strictly ascending in iteration order. -/
def sortedKeys {α : Type} (m : List (Nat × α)) : Prop :=
  List.Pairwise (fun x y => x.1 < y.1) m

/-- The reported orders of the price level at a given price (empty when the
side map has no level there). -/
def levelOrdersAt (m : List (Nat × Level)) (p : Nat) : List Order :=
  match mapGet p m with
  | some lvl => levelOrders p lvl
  | none => []

/-! Helper lemmas about the association-list maps. -/

theorem mapGet_insertSorted_self {α : Type} (k : Nat) (v : α) (m : List (Nat × α)) :
    mapGet k (insertSorted k v m) = some v := by
  induction m with
  | nil => simp [insertSorted, mapGet]
  | cons hd tl ih =>
    rcases hd with ⟨k₀, v₀⟩
    by_cases h1 : k < k₀
    · simp [insertSorted, h1, mapGet]
    · by_cases h2 : k = k₀
      · simp [insertSorted, h1, h2, mapGet]
      · simp [insertSorted, h1, h2, mapGet, ih]

theorem mapGet_insertSorted_of_ne {α : Type} (k k' : Nat) (v : α) (m : List (Nat × α))
    (hne : k' ≠ k) : mapGet k' (insertSorted k v m) = mapGet k' m := by
  induction m with
  | nil => simp [insertSorted, mapGet, hne]
  | cons hd tl ih =>
    rcases hd with ⟨k₀, v₀⟩
    by_cases h1 : k < k₀
    · simp [insertSorted, h1, mapGet, hne]
    · by_cases h2 : k = k₀
      · subst h2
        simp [insertSorted, h1, mapGet, hne]
      · simp [insertSorted, h1, h2, mapGet, ih]

/-! Theorems for the claims. -/

/-- Claim C10: for every book state and identifier, query leaves the whole
book state (both side maps, the reverse index, and the identifier source)
unchanged, whether the lookup hits, misses, or trips a stale-index panic:
the operation reads through the reverse index only. -/
theorem c10_query_preserves_book : ∀ (b : Book) (id : Nat), (query b id).2 = b :=
  fun _ _ => rfl

/-- Claim C9: insert_uncontended inserts the binding when the key is absent,
leaving every other key's binding unchanged, and raises an unrecoverable
failure (modelled as none) when the key is already present, never silently
overwriting the existing value. -/
theorem c9_insert_uncontended_no_clobber :
    ∀ (α : Type) (m : List (Nat × α)) (k : Nat) (v : α),
      (mapGet k m = none →
        insert_uncontended m k v = some (insertSorted k v m) ∧
        mapGet k (insertSorted k v m) = some v ∧
        ∀ k', k' ≠ k → mapGet k' (insertSorted k v m) = mapGet k' m) ∧
      (∀ w, mapGet k m = some w → insert_uncontended m k v = none) := by
  intro α m k v
  constructor
  · intro habsent
    refine ⟨?_, mapGet_insertSorted_self k v m,
      fun k' hk => mapGet_insertSorted_of_ne k k' v m hk⟩
    unfold insert_uncontended
    rw [habsent]
    rfl
  · intro w hpresent
    unfold insert_uncontended
    rw [hpresent]
    rfl

/-- Witness for C9 at a concrete map: key 2 is absent from [(1, 10)] and is
inserted without touching key 1; key 1 is present and the insert panics. -/
theorem c9_insert_uncontended_no_clobber_witness :
    insert_uncontended [(1, 10)] 2 20 = some (insertSorted 2 20 [(1, 10)]) ∧
    mapGet 2 (insertSorted 2 20 [(1, 10)]) = some 20 ∧
    mapGet 1 (insertSorted 2 20 [(1, 10)]) = mapGet 1 [(1, 10)] ∧
    insert_uncontended [(1, 10)] 1 99 = none := by
  have h := c9_insert_uncontended_no_clobber Nat [(1, 10)] 2 20
  have h' := c9_insert_uncontended_no_clobber Nat [(1, 10)] 1 99
  exact ⟨(h.1 (by decide)).1, (h.1 (by decide)).2.1,
    (h.1 (by decide)).2.2 1 (by decide), h'.2 10 (by decide)⟩

/-- Claim C1 (refuted on the code): when the incoming quantity exceeds the
resting quantity, the surplus branch of conditional_buy computes the resting
quantity minus the incoming quantity instead of the claimed incoming minus
resting, which underflows the unsigned quantity type: against a resident sell
of quantity 2 at price 5, an incoming buy of quantity 5 at price 5 panics
instead of reporting buyers_remaining = 3. -/
theorem c1_buy_surplus_branch_underflows :
    runOps emptyBook [Op.sell 2 5]
      = some ⟨[], [(5, [(0, 2)])], [(0, BuyOrSellAtPriceLevel.sell 5)], 1⟩ ∧
    (conditional_buy ⟨[], [(5, [(0, 2)])], [(0, BuyOrSellAtPriceLevel.sell 5)], 1⟩
        ⟨5, by decide⟩ 5 (fun _ => (Flow.cont : Flow Unit))).1
      = OpOut.panicked ∧
    (conditional_sell ⟨[(5, [(0, 2)])], [], [(0, BuyOrSellAtPriceLevel.buy 5)], 1⟩
        ⟨5, by decide⟩ 5 (fun _ => (Flow.cont : Flow Unit))).1
      = OpOut.panicked := by
  refine ⟨by decide, by decide, by decide⟩

/-- Claim C2 (refuted on the code): the no-cross invariant is violated by a
reachable sequence of public operations: from the empty book, submit sells of
quantity 1 at prices 5, 10 and 10, then cancel the first order at price 10;
the Sell arm of cancel reinserts the remaining level into the buys map, so
the resulting book holds a resident bid at 10 against a resident ask at 5. -/
theorem c2_no_cross_invariant_fails :
    runOps emptyBook [Op.sell 1 5, Op.sell 1 10, Op.sell 1 10, Op.cancelOp 1]
      = some ⟨[(10, [(2, 1)])], [(5, [(0, 1)])],
              [(0, BuyOrSellAtPriceLevel.sell 5), (2, BuyOrSellAtPriceLevel.sell 10)], 3⟩ ∧
    best_buy ⟨[(10, [(2, 1)])], [(5, [(0, 1)])],
              [(0, BuyOrSellAtPriceLevel.sell 5), (2, BuyOrSellAtPriceLevel.sell 10)], 3⟩
      = some 10 ∧
    best_sell ⟨[(10, [(2, 1)])], [(5, [(0, 1)])],
              [(0, BuyOrSellAtPriceLevel.sell 5), (2, BuyOrSellAtPriceLevel.sell 10)], 3⟩
      = some 5 ∧
    ¬ (10 : Nat) < 5 := by
  refine ⟨by decide, by decide, by decide, by decide⟩

/-- Claim C3 (refuted on the code): cancelling one of two resident sells at
the same price removes the whole level from the sells map but reinserts the
surviving order into the buys map, so the other resident order does not stay
on its original side; its reverse-index entry still says sell, and a
subsequent query of it panics on the stale index. -/
theorem c3_cancel_sell_moves_level_to_buys :
    runOps emptyBook [Op.sell 1 10, Op.sell 2 10]
      = some ⟨[], [(10, [(0, 1), (1, 2)])],
              [(0, BuyOrSellAtPriceLevel.sell 10), (1, BuyOrSellAtPriceLevel.sell 10)], 2⟩ ∧
    cancel ⟨[], [(10, [(0, 1), (1, 2)])],
            [(0, BuyOrSellAtPriceLevel.sell 10), (1, BuyOrSellAtPriceLevel.sell 10)], 2⟩ 0
      = some (CancelResult.cancelled,
          ⟨[(10, [(1, 2)])], [], [(1, BuyOrSellAtPriceLevel.sell 10)], 2⟩) ∧
    (query ⟨[(10, [(1, 2)])], [], [(1, BuyOrSellAtPriceLevel.sell 10)], 2⟩ 1).1 = none := by
  refine ⟨by decide, by decide, by decide⟩

/-- Claim C4 (refuted on the code): an incoming sell of quantity 3 against a
single resident buy of quantity 10 at price 5 does reduce the resting
quantity to 7 and requeues it at the front of its level, but the partial-fill
arm of conditional_sell inserts that level into the sells map, not back into
buys: afterwards the buys side is empty, the reduced order sits on the sells
side, and querying the buyer's identifier panics on the stale index instead
of reporting a buy of quantity 7. -/
theorem c4_partial_sell_fill_moves_buy_to_sells :
    runOps emptyBook [Op.buy 10 5]
      = some ⟨[(5, [(0, 10)])], [], [(0, BuyOrSellAtPriceLevel.buy 5)], 1⟩ ∧
    (conditional_sell ⟨[(5, [(0, 10)])], [], [(0, BuyOrSellAtPriceLevel.buy 5)], 1⟩
        ⟨3, by decide⟩ 5 (fun _ => (Flow.cont : Flow Unit))).1
      = OpOut.ok (SellEntryOrExecution.sellerFullyExecuted 0 none 7)
          ⟨[], [(5, [(0, 7)])], [(0, BuyOrSellAtPriceLevel.buy 5)], 1⟩ ∧
    (query ⟨[], [(5, [(0, 7)])], [(0, BuyOrSellAtPriceLevel.buy 5)], 1⟩ 0).1 = none := by
  refine ⟨by decide, by decide, by decide⟩

/-- Claim C7: the quantity parameter of the conditional operations is the
strictly-positive witness type, so a zero quantity is unrepresentable at the
call site, and the outcome type has no distinguished zero-quantity branch:
every call yields a panic, the caller's abort, or one of the four enumerated
entry/execution outcomes. -/
theorem c7_zero_quantity_unrepresentable :
    (∀ q : Positive, 0 < q.val) ∧
    (¬ ∃ q : Positive, q.val = 0) ∧
    (∀ (ρ : Type) (b : Book) (q : Positive) (p : Nat) (cond : Nat → Flow ρ),
      ((conditional_buy b q p cond).1 = OpOut.panicked ∨
        (∃ r b', (conditional_buy b q p cond).1 = OpOut.aborted r b') ∨
        (∃ id b', (conditional_buy b q p cond).1
          = OpOut.ok (BuyEntryOrExecution.enteredOrderBook id) b') ∨
        (∃ s sp b', (conditional_buy b q p cond).1
          = OpOut.ok (BuyEntryOrExecution.mutualFullExecution s sp) b') ∨
        (∃ s sp rem b', (conditional_buy b q p cond).1
          = OpOut.ok (BuyEntryOrExecution.buyerFullyExecuted s sp rem) b') ∨
        (∃ s sp rem b', (conditional_buy b q p cond).1
          = OpOut.ok (BuyEntryOrExecution.sellerFullyExecuted s sp rem) b')) ∧
      ((conditional_sell b q p cond).1 = OpOut.panicked ∨
        (∃ r b', (conditional_sell b q p cond).1 = OpOut.aborted r b') ∨
        (∃ id b', (conditional_sell b q p cond).1
          = OpOut.ok (SellEntryOrExecution.enteredOrderBook id) b') ∨
        (∃ s sp b', (conditional_sell b q p cond).1
          = OpOut.ok (SellEntryOrExecution.mutualFullExecution s sp) b') ∨
        (∃ s sp rem b', (conditional_sell b q p cond).1
          = OpOut.ok (SellEntryOrExecution.buyerFullyExecuted s sp rem) b') ∨
        (∃ s sp rem b', (conditional_sell b q p cond).1
          = OpOut.ok (SellEntryOrExecution.sellerFullyExecuted s sp rem) b'))) := by
  refine ⟨fun q => q.2, ?_, ?_⟩
  · rintro ⟨q, hq⟩
    exact absurd hq (Nat.pos_iff_ne_zero.mp q.2)
  · intro ρ b q p cond
    constructor
    · cases hh : (conditional_buy b q p cond).1 with
      | panicked => exact Or.inl rfl
      | aborted r b' => exact Or.inr (Or.inl ⟨r, b', rfl⟩)
      | ok out b' =>
        cases out with
        | enteredOrderBook id => exact Or.inr (Or.inr (Or.inl ⟨id, b', rfl⟩))
        | mutualFullExecution s sp => exact Or.inr (Or.inr (Or.inr (Or.inl ⟨s, sp, b', rfl⟩)))
        | buyerFullyExecuted s sp rem =>
          exact Or.inr (Or.inr (Or.inr (Or.inr (Or.inl ⟨s, sp, rem, b', rfl⟩))))
        | sellerFullyExecuted s sp rem =>
          exact Or.inr (Or.inr (Or.inr (Or.inr (Or.inr ⟨s, sp, rem, b', rfl⟩))))
    · cases hh : (conditional_sell b q p cond).1 with
      | panicked => exact Or.inl rfl
      | aborted r b' => exact Or.inr (Or.inl ⟨r, b', rfl⟩)
      | ok out b' =>
        cases out with
        | enteredOrderBook id => exact Or.inr (Or.inr (Or.inl ⟨id, b', rfl⟩))
        | mutualFullExecution s sp => exact Or.inr (Or.inr (Or.inr (Or.inl ⟨s, sp, b', rfl⟩)))
        | buyerFullyExecuted s sp rem =>
          exact Or.inr (Or.inr (Or.inr (Or.inr (Or.inl ⟨s, sp, rem, b', rfl⟩))))
        | sellerFullyExecuted s sp rem =>
          exact Or.inr (Or.inr (Or.inr (Or.inr (Or.inr ⟨s, sp, rem, b', rfl⟩))))

/-- Claim C5: when a match is about to occur and the caller-supplied
condition returns an abort for the counterparty it is invoked with, the
operation returns exactly the caller's abort reason and the book carried by
the result is the unchanged pre-call book (both side maps, the reverse index
and the identifier source): no mutation happens before or after the callback
runs. -/
theorem c5_abort_returns_reason_book_unchanged :
    ∀ (ρ : Type) (b : Book) (q : Positive) (p : Nat) (cond : Nat → Flow ρ),
      (∀ ap sid sq rl rs r, b.sells = (ap, (sid, sq) :: rl) :: rs → ap ≤ p →
        cond sid = Flow.brk r →
        (conditional_buy b q p cond).1 = OpOut.aborted r b) ∧
      (∀ bp bid bq rl r, b.buys.getLast? = some (bp, (bid, bq) :: rl) → p ≤ bp →
        cond bid = Flow.brk r →
        (conditional_sell b q p cond).1 = OpOut.aborted r b) := by
  intro ρ b q p cond
  constructor
  · intro ap sid sq rl rs r hs hle hc
    unfold conditional_buy
    rw [hs]
    simp [hle, hc]
  · intro bp bid bq rl r hb hle hc
    unfold conditional_sell
    rw [hb]
    simp [hle, hc]

/-- Witness for C5: an aborting buy against a resident ask at 5 and an
aborting sell against a resident bid at 5 both return the caller's reason
with the book unchanged. -/
theorem c5_abort_returns_reason_book_unchanged_witness :
    (conditional_buy ⟨[], [(5, [(0, 2)])], [(0, BuyOrSellAtPriceLevel.sell 5)], 1⟩
        ⟨1, by decide⟩ 5 (fun _ => (Flow.brk 7 : Flow Nat))).1
      = OpOut.aborted 7 ⟨[], [(5, [(0, 2)])], [(0, BuyOrSellAtPriceLevel.sell 5)], 1⟩ ∧
    (conditional_sell ⟨[(5, [(0, 2)])], [], [(0, BuyOrSellAtPriceLevel.buy 5)], 1⟩
        ⟨1, by decide⟩ 5 (fun _ => (Flow.brk 9 : Flow Nat))).1
      = OpOut.aborted 9 ⟨[(5, [(0, 2)])], [], [(0, BuyOrSellAtPriceLevel.buy 5)], 1⟩ := by
  constructor
  · exact (c5_abort_returns_reason_book_unchanged Nat
      ⟨[], [(5, [(0, 2)])], [(0, BuyOrSellAtPriceLevel.sell 5)], 1⟩
      ⟨1, by decide⟩ 5 (fun _ => Flow.brk 7)).1 5 0 2 [] [] 7 rfl (by decide) rfl
  · exact (c5_abort_returns_reason_book_unchanged Nat
      ⟨[(5, [(0, 2)])], [], [(0, BuyOrSellAtPriceLevel.buy 5)], 1⟩
      ⟨1, by decide⟩ 5 (fun _ => Flow.brk 9)).2 5 0 2 [] 9 rfl (by decide) rfl

/-- Claim C6: the condition callback is invoked exactly once, with the
identifier of the oldest resting order at the best crossable price level of
the opposite side, when a match is about to occur, and is never invoked when
the opposite side is empty or its best price is not crossable (the recorded
invocation list is the singleton of that identifier, respectively empty). -/
theorem c6_condition_called_once_with_oldest :
    ∀ (ρ : Type) (b : Book) (q : Positive) (p : Nat) (cond : Nat → Flow ρ),
      (∀ ap sid sq rl rs, b.sells = (ap, (sid, sq) :: rl) :: rs → ap ≤ p →
        (conditional_buy b q p cond).2 = [sid]) ∧
      ((∀ ap lvl rs, b.sells = (ap, lvl) :: rs → p < ap) →
        (conditional_buy b q p cond).2 = []) ∧
      (∀ bp bid bq rl, b.buys.getLast? = some (bp, (bid, bq) :: rl) → p ≤ bp →
        (conditional_sell b q p cond).2 = [bid]) ∧
      ((∀ bp lvl, b.buys.getLast? = some (bp, lvl) → bp < p) →
        (conditional_sell b q p cond).2 = []) := by
  intro ρ b q p cond
  refine ⟨?_, ?_, ?_, ?_⟩
  · intro ap sid sq rl rs hs hle
    unfold conditional_buy
    rw [hs]
    simp [hle]
  · intro hfar
    have hsnd : ∀ qn, (enter_buy (ρ := ρ) b qn p).2 = [] := by
      intro qn
      simp only [enter_buy]
      split <;> rfl
    unfold conditional_buy
    rcases hs : b.sells with _ | ⟨⟨ap, lvl⟩, rs⟩
    · exact hsnd q.val
    · have hnot : ¬ ap ≤ p := Nat.not_le.mpr (hfar ap lvl rs hs)
      simp only [hnot, if_false]
      exact hsnd q.val
  · intro bp bid bq rl hb hle
    unfold conditional_sell
    rw [hb]
    simp [hle]
  · intro hfar
    have hsnd : ∀ qn, (enter_sell (ρ := ρ) b qn p).2 = [] := by
      intro qn
      simp only [enter_sell]
      split <;> rfl
    unfold conditional_sell
    rcases hb : b.buys.getLast? with _ | ⟨⟨bp, lvl⟩⟩
    · exact hsnd q.val
    · have hnot : ¬ p ≤ bp := Nat.not_le.mpr (hfar bp lvl hb)
      simp only [hnot, if_false]
      exact hsnd q.val

/-- Witness for C6: with a resident ask level [(0, 2)] at price 5, a buy at 5
invokes the condition exactly on identifier 0, while a buy at 4 invokes it on
nobody; mirrored for a resident bid level at price 5 and sells at 5 and 6. -/
theorem c6_condition_called_once_with_oldest_witness :
    (conditional_buy ⟨[], [(5, [(0, 2)])], [(0, BuyOrSellAtPriceLevel.sell 5)], 1⟩
        ⟨1, by decide⟩ 5 (fun _ => (Flow.cont : Flow Unit))).2 = [0] ∧
    (conditional_buy ⟨[], [(5, [(0, 2)])], [(0, BuyOrSellAtPriceLevel.sell 5)], 1⟩
        ⟨1, by decide⟩ 4 (fun _ => (Flow.cont : Flow Unit))).2 = [] ∧
    (conditional_sell ⟨[(5, [(0, 2)])], [], [(0, BuyOrSellAtPriceLevel.buy 5)], 1⟩
        ⟨1, by decide⟩ 5 (fun _ => (Flow.cont : Flow Unit))).2 = [0] ∧
    (conditional_sell ⟨[(5, [(0, 2)])], [], [(0, BuyOrSellAtPriceLevel.buy 5)], 1⟩
        ⟨1, by decide⟩ 6 (fun _ => (Flow.cont : Flow Unit))).2 = [] := by
  refine ⟨?_, ?_, ?_, ?_⟩
  · exact (c6_condition_called_once_with_oldest Unit
      ⟨[], [(5, [(0, 2)])], [(0, BuyOrSellAtPriceLevel.sell 5)], 1⟩
      ⟨1, by decide⟩ 5 (fun _ => Flow.cont)).1 5 0 2 [] [] rfl (by decide)
  · refine (c6_condition_called_once_with_oldest Unit
      ⟨[], [(5, [(0, 2)])], [(0, BuyOrSellAtPriceLevel.sell 5)], 1⟩
      ⟨1, by decide⟩ 4 (fun _ => Flow.cont)).2.1 ?_
    intro ap lvl rs hs
    injection hs with h1 h2
    injection h1 with h3 h4
    omega
  · exact (c6_condition_called_once_with_oldest Unit
      ⟨[(5, [(0, 2)])], [], [(0, BuyOrSellAtPriceLevel.buy 5)], 1⟩
      ⟨1, by decide⟩ 5 (fun _ => Flow.cont)).2.2.1 5 0 2 [] rfl (by decide)
  · refine (c6_condition_called_once_with_oldest Unit
      ⟨[(5, [(0, 2)])], [], [(0, BuyOrSellAtPriceLevel.buy 5)], 1⟩
      ⟨1, by decide⟩ 6 (fun _ => Flow.cont)).2.2.2 ?_
    intro bp lvl hb
    simp at hb
    omega

/-! Lemmas relating the flattened listings to the side maps (for C8). -/

theorem price_of_mem_levelOrders {o : Order} {p : Nat} {lvl : Level}
    (h : o ∈ levelOrders p lvl) : o.unit_price = p := by
  unfold levelOrders at h
  obtain ⟨e, _, rfl⟩ := List.mem_map.mp h
  rfl

theorem mem_flattenLevels {o : Order} :
    ∀ {m : List (Nat × Level)},
      o ∈ flattenLevels m ↔ ∃ p lvl, (p, lvl) ∈ m ∧ o ∈ levelOrders p lvl := by
  intro m
  induction m with
  | nil => simp [flattenLevels]
  | cons hd tl ih =>
    rcases hd with ⟨p, lvl⟩
    simp only [flattenLevels, List.mem_append, ih, List.mem_cons]
    constructor
    · rintro (h | ⟨p', lvl', hm, ho⟩)
      · exact ⟨p, lvl, Or.inl rfl, h⟩
      · exact ⟨p', lvl', Or.inr hm, ho⟩
    · rintro ⟨p', lvl', hm | hm, ho⟩
      · obtain ⟨h1, h2⟩ := Prod.mk.injEq .. ▸ hm
        subst h1
        subst h2
        exact Or.inl ho
      · exact Or.inr ⟨p', lvl', hm, ho⟩

theorem pairwise_levelOrders (R : Nat → Nat → Prop) (hR : ∀ k, R k k)
    (p : Nat) (lvl : Level) :
    List.Pairwise (fun a c : Order => R a.unit_price c.unit_price) (levelOrders p lvl) := by
  unfold levelOrders
  refine List.pairwise_map.mpr ?_
  induction lvl with
  | nil => exact List.Pairwise.nil
  | cons e rest ih => exact List.Pairwise.cons (fun _ _ => hR p) ih

theorem pairwise_flattenLevels (R : Nat → Nat → Prop) (hR : ∀ k, R k k) :
    ∀ (m : List (Nat × Level)),
      List.Pairwise (fun x y : Nat × Level => R x.1 y.1) m →
      List.Pairwise (fun a c : Order => R a.unit_price c.unit_price) (flattenLevels m) := by
  intro m
  induction m with
  | nil => intro _; exact List.Pairwise.nil
  | cons hd tl ih =>
    intro hm
    rcases hd with ⟨p, lvl⟩
    obtain ⟨hhd, htl⟩ := List.pairwise_cons.mp hm
    refine List.pairwise_append.mpr ⟨pairwise_levelOrders R hR p lvl, ih htl, ?_⟩
    intro a ha c hc
    obtain ⟨p', lvl', hm', hc'⟩ := mem_flattenLevels.mp hc
    rw [price_of_mem_levelOrders ha, price_of_mem_levelOrders hc']
    exact hhd (p', lvl') hm'

theorem filter_levelOrders_self (p : Nat) (lvl : Level) :
    (levelOrders p lvl).filter (fun o => decide (o.unit_price = p)) = levelOrders p lvl := by
  refine List.filter_eq_self.mpr ?_
  intro a ha
  simp [price_of_mem_levelOrders ha]

theorem filter_levelOrders_of_ne {q p : Nat} (lvl : Level) (hne : q ≠ p) :
    (levelOrders p lvl).filter (fun o => decide (o.unit_price = q)) = [] := by
  refine List.filter_eq_nil_iff.mpr ?_
  intro a ha
  simp [price_of_mem_levelOrders ha, hne.symm]

theorem mapGet_eq_none_of_all_ne {α : Type} (p : Nat) :
    ∀ (m : List (Nat × α)), (∀ y ∈ m, y.1 ≠ p) → mapGet p m = none := by
  intro m
  induction m with
  | nil => intro _; rfl
  | cons hd tl ih =>
    intro h
    rcases hd with ⟨k, v⟩
    have hk : p ≠ k := fun he => h (k, v) (List.mem_cons_self _ _) (he ▸ rfl)
    simp only [mapGet, hk, if_false]
    exact ih (fun y hy => h y (List.mem_cons_of_mem _ hy))

theorem mapGet_append_left {α : Type} {p : Nat} {l₁ l₂ : List (Nat × α)} {v : α}
    (h : mapGet p l₁ = some v) : mapGet p (l₁ ++ l₂) = some v := by
  induction l₁ with
  | nil => exact absurd h (by simp [mapGet])
  | cons hd tl ih =>
    rcases hd with ⟨k, w⟩
    by_cases hk : p = k
    · simp only [mapGet, hk, if_true, List.cons_append] at h ⊢
      simpa using h
    · simp only [mapGet, hk, if_false, List.cons_append] at h ⊢
      exact ih h

theorem mapGet_append_right {α : Type} {p : Nat} {l₁ l₂ : List (Nat × α)}
    (h : mapGet p l₁ = none) : mapGet p (l₁ ++ l₂) = mapGet p l₂ := by
  induction l₁ with
  | nil => rfl
  | cons hd tl ih =>
    rcases hd with ⟨k, w⟩
    by_cases hk : p = k
    · simp only [mapGet, hk, if_true] at h
      exact absurd h (by simp)
    · simp only [mapGet, hk, if_false, List.cons_append] at h ⊢
      exact ih h

theorem mapGet_reverse {α : Type} (p : Nat) :
    ∀ (m : List (Nat × α)), List.Pairwise (fun x y : Nat × α => x.1 ≠ y.1) m →
      mapGet p m.reverse = mapGet p m := by
  intro m
  induction m with
  | nil => intro _; rfl
  | cons hd tl ih =>
    intro hm
    rcases hd with ⟨k, v⟩
    obtain ⟨hhd, htl⟩ := List.pairwise_cons.mp hm
    rw [List.reverse_cons]
    by_cases hk : p = k
    · subst hk
      have h1 : mapGet p tl = none :=
        mapGet_eq_none_of_all_ne p tl (fun y hy => Ne.symm (hhd y hy))
      have h2 : mapGet p tl.reverse = none := by rw [ih htl]; exact h1
      rw [mapGet_append_right h2]
      simp [mapGet, h1]
    · cases hmg : mapGet p tl.reverse with
      | none =>
        rw [mapGet_append_right hmg]
        have h1 : mapGet p tl = none := by rw [← ih htl]; exact hmg
        simp [mapGet, hk, h1]
      | some w =>
        rw [mapGet_append_left hmg]
        have h1 : mapGet p tl = some w := by rw [← ih htl]; exact hmg
        simp [mapGet, hk, h1]

theorem filter_flattenLevels (p : Nat) :
    ∀ (m : List (Nat × Level)), List.Pairwise (fun x y : Nat × Level => x.1 ≠ y.1) m →
      (flattenLevels m).filter (fun o => decide (o.unit_price = p)) = levelOrdersAt m p := by
  intro m
  induction m with
  | nil => intro _; simp [flattenLevels, levelOrdersAt, mapGet]
  | cons hd tl ih =>
    intro hm
    rcases hd with ⟨k, lvl⟩
    obtain ⟨hhd, htl⟩ := List.pairwise_cons.mp hm
    simp only [flattenLevels, List.filter_append, ih htl]
    by_cases hk : p = k
    · subst hk
      rw [filter_levelOrders_self]
      have h1 : mapGet p tl = none :=
        mapGet_eq_none_of_all_ne p tl (fun y hy => Ne.symm (hhd y hy))
      simp [levelOrdersAt, mapGet, h1]
    · rw [filter_levelOrders_of_ne lvl hk]
      simp [levelOrdersAt, mapGet, hk]

/-- Claim C8: for every book whose side maps carry the B-tree key ordering,
the buys listing is ordered by descending price and the sells listing by
ascending price, and the orders reported at any single price are exactly that
price level's queue in front-to-back order — within one price, listing order
is queue order, which is the data model's time order. -/
theorem c8_listings_price_time_order :
    ∀ b : Book, sortedKeys b.buys → sortedKeys b.sells →
      List.Pairwise (fun a c : Order => c.unit_price ≤ a.unit_price) (buysList b) ∧
      List.Pairwise (fun a c : Order => a.unit_price ≤ c.unit_price) (sellsList b) ∧
      (∀ p, (buysList b).filter (fun o => decide (o.unit_price = p)) = levelOrdersAt b.buys p) ∧
      (∀ p, (sellsList b).filter (fun o => decide (o.unit_price = p)) = levelOrdersAt b.sells p) := by
  intro b hb hs
  have hbrev : List.Pairwise (fun x y : Nat × Level => y.1 ≤ x.1) b.buys.reverse :=
    List.pairwise_reverse.mpr (hb.imp Nat.le_of_lt)
  have hbne : List.Pairwise (fun x y : Nat × Level => x.1 ≠ y.1) b.buys.reverse :=
    List.pairwise_reverse.mpr (hb.imp (fun h => Ne.symm (Nat.ne_of_lt h)))
  have hbneFwd : List.Pairwise (fun x y : Nat × Level => x.1 ≠ y.1) b.buys :=
    hb.imp (fun h => Nat.ne_of_lt h)
  refine ⟨?_, ?_, ?_, ?_⟩
  · exact pairwise_flattenLevels (fun a c => c ≤ a) (fun k => Nat.le_refl k)
      b.buys.reverse hbrev
  · exact pairwise_flattenLevels (fun a c => a ≤ c) (fun k => Nat.le_refl k)
      b.sells (hs.imp Nat.le_of_lt)
  · intro p
    unfold buysList
    rw [filter_flattenLevels p b.buys.reverse hbne]
    unfold levelOrdersAt
    rw [mapGet_reverse p b.buys hbneFwd]
  · intro p
    exact filter_flattenLevels p b.sells (hs.imp (fun h => Nat.ne_of_lt h))

/-- Witness for C8 at a concrete book with two buy levels (a two-order queue
at price 2) and two sell levels. -/
theorem c8_listings_price_time_order_witness :
    List.Pairwise (fun a c : Order => c.unit_price ≤ a.unit_price)
      (buysList ⟨[(1, [(2, 1)]), (2, [(0, 1), (3, 4)])], [(4, [(1, 2)]), (6, [(4, 1)])], [], 5⟩) ∧
    List.Pairwise (fun a c : Order => a.unit_price ≤ c.unit_price)
      (sellsList ⟨[(1, [(2, 1)]), (2, [(0, 1), (3, 4)])], [(4, [(1, 2)]), (6, [(4, 1)])], [], 5⟩) ∧
    (buysList ⟨[(1, [(2, 1)]), (2, [(0, 1), (3, 4)])], [(4, [(1, 2)]), (6, [(4, 1)])], [], 5⟩).filter
        (fun o => decide (o.unit_price = 2))
      = levelOrdersAt [(1, [(2, 1)]), (2, [(0, 1), (3, 4)])] 2 ∧
    (sellsList ⟨[(1, [(2, 1)]), (2, [(0, 1), (3, 4)])], [(4, [(1, 2)]), (6, [(4, 1)])], [], 5⟩).filter
        (fun o => decide (o.unit_price = 4))
      = levelOrdersAt [(4, [(1, 2)]), (6, [(4, 1)])] 4 := by
  have h := c8_listings_price_time_order
    ⟨[(1, [(2, 1)]), (2, [(0, 1), (3, 4)])], [(4, [(1, 2)]), (6, [(4, 1)])], [], 5⟩
    (by simp [sortedKeys]) (by simp [sortedKeys])
  exact ⟨h.1, h.2.1, h.2.2.1 2, h.2.2.2 4⟩

end OrderBook
